import Mathlib

unseal Rat.add Rat.sub Rat.mul Rat.inv

/-!
Verification development for the FATORI-V fault-injection scheduling core.

The definitions below are a shallow embedding of the Python sources:
  * `src/targets/types.py`        — `TargetKind`, `TargetSpec.__post_init__`
  * `src/profiles/area/common/ratio_selector.py`
                                  — `RatioSelector.should_pick_reg`,
                                    `RatioSelector.build_sequential_intermixed_pool`
  * `src/profiles/time/uniform.py`— `UniformTimeProfile.run`
  * `src/profiles/time/ramp.py`   — `RampTimeProfile._current_rate`, `.run`
  * `src/profiles/time/microburst.py`
                                  — `MicroburstTimeProfile._run_interval`, `.run`
  * `src/profiles/time/trace.py`  — `TraceTimeProfile._load_schedule`
  * `src/core/campaign/sync.py`   — `BenchmarkSync.should_check`,
                                    `.check_benchmark_active`, `.on_injection`
  * `src/core/campaign/controller.py`
                                  — `InjectionController.inject_target`
  * `src/targets/router.py`       — `inject_target`, `_inject_config_bit`,
                                    `_inject_register`

Conventions of the embedding:
  * Python floats are modelled as rationals (`ℚ`); every numeric literal in
    the modelled code paths is dyadic, so rational arithmetic is exact.
  * Wall-clock readings (`time.monotonic` / `time.time`) are modelled by an
    explicit clock state; the environment supplies arbitrary non-negative
    advances between readings, and `sleep d` advances the clock by `d`.
  * Python exceptions that the modelled code can raise or catch are made
    explicit with `Except`; a caught exception corresponds to a `match` on
    the `Except` value of the collaborator call.
  * Stochastic draws (`random.Random`) are modelled as oracles: the
    environment supplies the sequence of already-sampled values.
  * Unbounded `while` loops are modelled with an explicit fuel parameter;
    theorems about concrete runs use fuel large enough that the fuel base
    case is never reached.
-/

/-! ## Target data model (`src/targets/types.py`) -/

/-- `TargetKind` enum from `types.py`: `CONFIG` (configuration bit) or
`REG` (register). -/
inductive TargetKind where
  | CONFIG
  | REG
deriving DecidableEq, Repr

/-- `TargetSpec` dataclass fields from `types.py`. `reg_id` is an integer in
the source; provenance strings are carried verbatim. -/
structure TargetSpec where
  kind : TargetKind
  module_name : String
  config_address : Option String
  pblock_name : Option String
  reg_id : Option Int
  reg_name : Option String
  source : String
deriving DecidableEq, Repr

/-- `TargetSpec.__post_init__` from `types.py`: constructing a `TargetSpec`
validates that a `CONFIG` target has `config_address` and that a `REG`
target has `reg_id`; a violation raises `ValueError` (modelled as
`Except.error` with the message prefix of the source). No other field
combination is checked by the source. -/
def mkTargetSpec (kind : TargetKind) (module_name : String)
    (config_address : Option String) (pblock_name : Option String)
    (reg_id : Option Int) (reg_name : Option String) (source : String) :
    Except String TargetSpec :=
  match kind with
  | TargetKind.CONFIG =>
      if config_address = none then
        Except.error "CONFIG target must have config_address"
      else
        Except.ok ⟨kind, module_name, config_address, pblock_name, reg_id, reg_name, source⟩
  | TargetKind.REG =>
      if reg_id = none then
        Except.error "REG target must have reg_id"
      else
        Except.ok ⟨kind, module_name, config_address, pblock_name, reg_id, reg_name, source⟩

/-- Count the elements of a pool that carry a given kind. -/
def countKind (k : TargetKind) (l : List TargetSpec) : ℕ :=
  (l.filter (fun t => decide (t.kind = k))).length

/-- A concrete CONFIG target used in concrete evaluations. -/
def cfgSpec (_i : ℕ) : TargetSpec :=
  ⟨TargetKind.CONFIG, "m", some "00001234", none, none, none, "test"⟩

/-- A concrete REG target used in concrete evaluations. -/
def regSpec (i : ℕ) : TargetSpec :=
  ⟨TargetKind.REG, "m", none, none, some (i : Int), none, "test"⟩

/-! ## Ratio selector (`src/profiles/area/common/ratio_selector.py`) -/

/-- `fi_settings.TPOOL_SIZE_BREAK_REPEAT_ONLY` (`fi_settings.py`). -/
def TPOOL_SIZE_BREAK_REPEAT_ONLY : Bool := true

/-- `fi_settings.TPOOL_ABSOLUTE_CAP` (`fi_settings.py`). -/
def TPOOL_ABSOLUTE_CAP : ℕ := 1000000

/-- `RatioSelector.should_pick_reg`: decide whether the next pick is a REG
(`true`) or a CONFIG (`false`), given the current selection counters.
`rat` is `self.ratio`, the proportion of REG targets. -/
def shouldPickReg (rat : ℚ) (configSelected regSelected : ℕ) : Bool :=
  if rat = 1 then true
  else if rat = 0 then false
  else
    let total := configSelected + regSelected
    if total = 0 then decide (rat > 1/2)
    else decide ((regSelected : ℚ) < (total : ℚ) * rat)

/-- Mutable state of `build_sequential_intermixed_pool`: the pool built so
far, the two list cursors and the two selection counters. -/
structure SeqState where
  pool : List TargetSpec
  configIdx : ℕ
  regIdx : ℕ
  configSelected : ℕ
  regSelected : ℕ
deriving DecidableEq, Repr

/-- One iteration of the `for` body of `build_sequential_intermixed_pool`.
Returns `none` when the body executes `break` (strict minority exhaustion,
or both kinds unavailable), otherwise the updated state. -/
def seqStep (rat : ℚ) (rpt strict : Bool) (cfgT regT : List TargetSpec)
    (st : SeqState) : Option SeqState :=
  if shouldPickReg rat st.configSelected st.regSelected then
    if h : st.regIdx < regT.length then
      let st1 : SeqState :=
        { st with pool := st.pool ++ [regT.get ⟨st.regIdx, h⟩],
                  regIdx := st.regIdx + 1,
                  regSelected := st.regSelected + 1 }
      -- repeat cycling: wrap the REG cursor to 0
      some (if rpt ∧ st1.regIdx ≥ regT.length then { st1 with regIdx := 0 } else st1)
    else if h2 : ¬rpt ∧ st.configIdx < cfgT.length then
      -- REGs exhausted: fall back to CONFIG unless strict
      if strict then none
      else
        some { st with pool := st.pool ++ [cfgT.get ⟨st.configIdx, h2.2⟩],
                       configIdx := st.configIdx + 1,
                       configSelected := st.configSelected + 1 }
    else none
  else
    if h : st.configIdx < cfgT.length then
      let st1 : SeqState :=
        { st with pool := st.pool ++ [cfgT.get ⟨st.configIdx, h⟩],
                  configIdx := st.configIdx + 1,
                  configSelected := st.configSelected + 1 }
      -- repeat cycling: wrap the CONFIG cursor to 0
      some (if rpt ∧ st1.configIdx ≥ cfgT.length then { st1 with configIdx := 0 } else st1)
    else if h2 : ¬rpt ∧ st.regIdx < regT.length then
      -- CONFIGs exhausted: fall back to REG unless strict
      if strict then none
      else
        some { st with pool := st.pool ++ [regT.get ⟨st.regIdx, h2.2⟩],
                       regIdx := st.regIdx + 1,
                       regSelected := st.regSelected + 1 }
    else none

/-- The `for _ in range(max_iterations)` loop of
`build_sequential_intermixed_pool`, including the trailing
"both exhausted in non-repeat mode" early break. -/
def seqLoop (rat : ℚ) (rpt strict : Bool) (cfgT regT : List TargetSpec) :
    ℕ → SeqState → SeqState
  | 0, st => st
  | fuel + 1, st =>
      match seqStep rat rpt strict cfgT regT st with
      | none => st
      | some st1 =>
          if ¬rpt ∧ st1.configIdx ≥ cfgT.length ∧ st1.regIdx ≥ regT.length then st1
          else seqLoop rat rpt strict cfgT regT fuel st1

/-- Python truthiness of `self.target_count : Optional[int]`: both `None`
and `0` are falsy. -/
def optTruthy (o : Option ℕ) : Bool :=
  decide (o.getD 0 ≠ 0)

/-- The `max_iterations` sizing rule of `build_sequential_intermixed_pool`
(both settings branches translated verbatim). -/
def seqMaxIterations (rpt : Bool) (targetCount : Option ℕ)
    (breakRepeatOnly : Bool) (absoluteCap : ℕ) (cfgLen regLen : ℕ) : ℕ :=
  if breakRepeatOnly then
    if rpt ∧ optTruthy targetCount then min (targetCount.getD 0) absoluteCap
    else if rpt then absoluteCap
    else
      let totalAvailable := cfgLen + regLen
      if totalAvailable > absoluteCap then absoluteCap else totalAvailable
  else
    if optTruthy targetCount then min (targetCount.getD 0) absoluteCap
    else if rpt then absoluteCap
    else
      let totalAvailable := cfgLen + regLen
      if totalAvailable > absoluteCap then absoluteCap else totalAvailable

/-- `RatioSelector.build_sequential_intermixed_pool`, with the settings
(`break_repeat_only`, `absolute_cap`) passed explicitly; the source reads
the defaults from `fi_settings` when no config object is supplied.
Returns the final selector state; `.pool` is the returned list. -/
def buildSequentialIntermixedPool (rat : ℚ) (rpt : Bool)
    (targetCount : Option ℕ) (strict : Bool)
    (breakRepeatOnly : Bool) (absoluteCap : ℕ)
    (cfgT regT : List TargetSpec) : SeqState :=
  seqLoop rat rpt strict cfgT regT
    (seqMaxIterations rpt targetCount breakRepeatOnly absoluteCap cfgT.length regT.length)
    ⟨[], 0, 0, 0, 0⟩

/-! ## Concrete inputs for the ratio-selector claims -/

/-- The 10 CONFIG candidates of the strict-exhaustion scenario. -/
def c1Cfg : List TargetSpec := (List.range 10).map cfgSpec

/-- The 3 REG candidates of the strict-exhaustion scenario. -/
def c1Reg : List TargetSpec := (List.range 3).map regSpec

/-- The pool built by `build_sequential_intermixed_pool` with
`ratio=0.5`, `repeat=False`, `ratio_strict=True`, `target_count=None`
and the default `fi_settings` values. -/
def c1Pool : List TargetSpec :=
  (buildSequentialIntermixedPool (1/2) false none true
    TPOOL_SIZE_BREAK_REPEAT_ONLY TPOOL_ABSOLUTE_CAP c1Cfg c1Reg).pool

/-! ## Uniform time profile (`src/profiles/time/uniform.py`) -/

/-- One injection event of a `UniformTimeProfile.run` trace:
the absolute deadline `start_t + injection_count * period_s` computed by the
loop, the `now` reading taken just before the sleep decision, and the
amount slept (0 when no `controller.sleep` call was made). -/
structure InjEvent where
  deadline : ℚ
  checkTime : ℚ
  slept : ℚ
deriving DecidableEq, Repr

/-- Environment of a `UniformTimeProfile.run` execution: the stop flag
observed at each loop iteration, and the (arbitrary, environment-chosen)
clock advances before the duration-check reading, before the pre-sleep
reading, and across `inject_target`. -/
structure UniformEnv where
  stop : ℕ → Bool
  durDelay : ℕ → ℚ
  checkDelay : ℕ → ℚ
  injDelay : ℕ → ℚ

/-- The clock after the optional duration-check reading of one iteration of
`UniformTimeProfile.run` (`base.now_monotonic()` is only called when
`duration_s` is set). -/
def uniformDurClock (dur : Option ℚ) (env : UniformEnv) (count : ℕ) (clock : ℚ) : ℚ :=
  match dur with
  | some _ => clock + env.durDelay count
  | none => clock

/-- The duration-limit test of one iteration of `UniformTimeProfile.run`. -/
def uniformDurHit (dur : Option ℚ) (startT clock1 : ℚ) : Bool :=
  match dur with
  | some d => decide (clock1 - startT ≥ d)
  | none => false

/-- The `while True` loop of `UniformTimeProfile.run`. `pool` models the
targets still returned by `controller.next_target()`; `count` is
`injection_count`; `clock` is the current monotonic time. Returns the
injection events in order together with the termination reason passed to
`controller.set_termination_reason`. The loop consumes one pool element
per non-breaking iteration, so recursion on `pool` is exact. -/
def uniformLoop (p : ℚ) (dur : Option ℚ) (env : UniformEnv) (startT : ℚ) :
    List TargetSpec → ℕ → ℚ → List InjEvent × String
  | [], count, clock =>
      if env.stop count then ([], "Stop requested")
      else
        if uniformDurHit dur startT (uniformDurClock dur env count clock) then
          ([], "Duration limit reached")
        else ([], "Target pool exhausted")
  | _t :: rest, count, clock =>
      if env.stop count then ([], "Stop requested")
      else
        let clock1 := uniformDurClock dur env count clock
        if uniformDurHit dur startT clock1 then ([], "Duration limit reached")
        else
          let targetTime := startT + (count : ℚ) * p
          let now := clock1 + env.checkDelay count
          let slept := if targetTime - now > 0 then targetTime - now else 0
          let clock2 := now + slept + env.injDelay count
          let r := uniformLoop p dur env startT rest (count + 1) clock2
          (⟨targetTime, now, slept⟩ :: r.1, r.2)

/-- `UniformTimeProfile.run`: `start_t = base.now_monotonic()` anchors both
the clock and the deadline base, then the loop runs with
`injection_count = 0`. -/
def uniformRun (p : ℚ) (dur : Option ℚ) (env : UniformEnv) (startT : ℚ)
    (pool : List TargetSpec) : List InjEvent × String :=
  uniformLoop p dur env startT pool 0 startT

/-! ## Ramp time profile (`src/profiles/time/ramp.py`) -/

/-- Python runtime exceptions that the modelled code can raise. -/
inductive PyErr where
  | nameError (name : String)
deriving DecidableEq, Repr

/-- Parameters accepted by `RampTimeProfile.__init__`. -/
structure RampProfile where
  startRateHz : ℚ
  endRateHz : ℚ
  durationS : ℚ
deriving DecidableEq, Repr

/-- `RampTimeProfile.__init__`: eager validation of the ramp parameters. -/
def mkRampProfile (startRateHz endRateHz durationS : ℚ) : Except String RampProfile :=
  if durationS ≤ 0 then Except.error "ramp profile requires duration_s > 0."
  else if startRateHz ≤ 0 ∨ endRateHz ≤ 0 then
    Except.error "ramp profile requires positive start_rate_hz and end_rate_hz."
  else Except.ok ⟨startRateHz, endRateHz, durationS⟩

/-- `RampTimeProfile._current_rate`: linear interpolation of the
instantaneous rate, clamped at the endpoints. -/
def currentRate (P : RampProfile) (elapsed : ℚ) : ℚ :=
  if elapsed ≤ 0 then P.startRateHz
  else if elapsed ≥ P.durationS then P.endRateHz
  else P.startRateHz + (elapsed / P.durationS) * (P.endRateHz - P.startRateHz)

/-- Environment of a `RampTimeProfile.run` execution. -/
structure RampEnv where
  stop : ℕ → Bool
  loopDelay : ℕ → ℚ

/-- The `while True` loop of `RampTimeProfile.run`, together with the
controller's `termination_reason` state (initially `"unknown"`).

Any iteration that reaches an injection then executes
`next_deadline += period_s` (ramp.py line 106); the name `period_s` is not
defined anywhere in `run`, so the statement raises
`NameError: name 'period_s' is not defined` and the exception propagates
out of `run` with the termination reason unchanged. In particular the loop
never completes an iteration, so no recursion is needed; `_current_rate`
is never called by `run`. -/
def rampLoop (P : RampProfile) (env : RampEnv) (startT : ℚ)
    (pool : List TargetSpec) (k : ℕ) (clock : ℚ) (reason : String) :
    Except PyErr Unit × String :=
  if env.stop k then (Except.ok (), "Stop requested")
  else
    let now := clock + env.loopDelay k
    if now - startT ≥ P.durationS then (Except.ok (), "Duration limit reached")
    else
      match pool with
      | [] => (Except.ok (), "Target pool exhausted")
      | _t :: _rest => (Except.error (PyErr.nameError "period_s"), reason)

/-- `RampTimeProfile.run`: anchor `start_t`, set `next_deadline = start_t`,
enter the loop with the controller's initial reason `"unknown"`. -/
def rampRun (P : RampProfile) (env : RampEnv) (pool : List TargetSpec)
    (startT : ℚ) : Except PyErr Unit × String :=
  rampLoop P env startT pool 0 startT "unknown"

/-- A ramp environment with no stop request and no scheduling overhead. -/
def rampEnvZero : RampEnv :=
  ⟨fun _ => false, fun _ => 0⟩

/-! ## Microburst time profile (`src/profiles/time/microburst.py`) -/

/-- Parameters of `MicroburstTimeProfile` (after `__init__` validation). -/
structure MBParams where
  burstRateHz : ℚ
  idleRateHz : ℚ
  burstDurationS : ℚ
  idleDurationS : ℚ
  bursts : Option ℕ
  durationS : Option ℚ
deriving DecidableEq, Repr

/-- Environment of a `MicroburstTimeProfile.run` execution: stop-flag
readings, clock advances at each `now_monotonic` reading, the sequence of
`sample_exponential` draws, and the time consumed by each
`inject_target`. -/
structure MBEnv where
  stop : ℕ → Bool
  delay : ℕ → ℚ
  deltas : ℕ → ℚ
  injAdv : ℕ → ℚ

/-- Execution state threaded through the microburst loops: the monotonic
clock, cursors into the environment's stop/reading/draw/injection
sequences, the injection instants recorded so far, and the remaining
target pool. -/
structure MBState where
  clock : ℚ
  stopIdx : ℕ
  readIdx : ℕ
  drawIdx : ℕ
  injIdx : ℕ
  injTimes : List ℚ
  pool : List TargetSpec
deriving DecidableEq, Repr

/-- One `base.now_monotonic()` reading. -/
def mbReadNow (env : MBEnv) (st : MBState) : ℚ × MBState :=
  let t := st.clock + env.delay st.readIdx
  (t, { st with clock := t, readIdx := st.readIdx + 1 })

/-- One `controller.should_stop()` reading. -/
def mbCheckStop (env : MBEnv) (st : MBState) : Bool × MBState :=
  (env.stop st.stopIdx, { st with stopIdx := st.stopIdx + 1 })

/-- `controller.sleep(d)`: sleeps only when `d > 0`. -/
def mbSleep (d : ℚ) (st : MBState) : MBState :=
  if d > 0 then { st with clock := st.clock + d } else st

/-- The `rate_hz <= 0` branch of `MicroburstTimeProfile._run_interval`:
pure sleep in coarse steps of at most 1 s until the interval's own
duration elapses. Returns `false` on stop. `fuel` bounds the loop; all
theorems below use fuel large enough that the base case is unreachable. -/
def runIntervalZeroLoop (env : MBEnv) (durS startT : ℚ) :
    ℕ → MBState → Bool × MBState
  | 0, st => (true, st)
  | fuel + 1, st =>
      let s1 := mbCheckStop env st
      if s1.1 then (false, s1.2)
      else
        let r2 := mbReadNow env s1.2
        let elapsed := r2.1 - startT
        if elapsed ≥ durS then (true, r2.2)
        else runIntervalZeroLoop env durS startT fuel (mbSleep (min 1 (durS - elapsed)) r2.2)

/-- The active (`rate_hz > 0`) branch of
`MicroburstTimeProfile._run_interval`: exponential inter-arrival draws
(`base.sample_exponential`, modelled by the `deltas` oracle) starting from
the current reading, truncated at the interval's own duration. Returns
`false` on stop or pool exhaustion. -/
def runIntervalActiveLoop (env : MBEnv) (durS startT : ℚ) :
    ℕ → MBState → Bool × MBState
  | 0, st => (true, st)
  | fuel + 1, st =>
      let s1 := mbCheckStop env st
      if s1.1 then (false, s1.2)
      else
        let r2 := mbReadNow env s1.2
        if r2.1 - startT ≥ durS then (true, r2.2)
        else
          let delta := env.deltas r2.2.drawIdx
          let st3 := { r2.2 with drawIdx := r2.2.drawIdx + 1 }
          let currentT := r2.1 + delta
          if currentT - startT > durS then (true, st3)
          else
            match st3.pool with
            | [] => (false, st3)
            | _t :: rest =>
                let st4 := { st3 with pool := rest }
                let r5 := mbReadNow env st4
                let st6 := mbSleep (currentT - r5.1) r5.2
                let st7 := { st6 with
                              clock := st6.clock + env.injAdv st6.injIdx,
                              injIdx := st6.injIdx + 1,
                              injTimes := st6.injTimes ++ [st6.clock] }
                runIntervalActiveLoop env durS startT fuel st7

/-- `MicroburstTimeProfile._run_interval`: reads the interval's own
`start_t`, then dispatches on `rate_hz <= 0`. The interval is always run
with the full duration passed by the caller. -/
def runInterval (env : MBEnv) (rateHz durS : ℚ) (fuel : ℕ) (st : MBState) :
    Bool × MBState :=
  let r := mbReadNow env st
  if rateHz ≤ 0 then runIntervalZeroLoop env durS r.1 fuel r.2
  else runIntervalActiveLoop env durS r.1 fuel r.2

/-- The burst-count test at the top of `MicroburstTimeProfile.run`. -/
def mbBurstsDone (bursts : Option ℕ) (burstCount : ℕ) : Bool :=
  match bursts with
  | some b => decide (burstCount ≥ b)
  | none => false

/-- The overall-duration test of `MicroburstTimeProfile.run` (reads the
clock only when `duration_s` is set). -/
def mbDurHit (dur : Option ℚ) (env : MBEnv) (campaignStart : ℚ) (st : MBState) :
    Bool × MBState :=
  match dur with
  | some d =>
      let r := mbReadNow env st
      (decide (r.1 - campaignStart ≥ d), r.2)
  | none => (false, st)

/-- The `while True` loop of `MicroburstTimeProfile.run`: burst-count
check, duration check, stop check, idle interval, duration check, stop
check, burst interval, increment burst counter. Note that each
`_run_interval` call receives the full configured interval duration,
never `min(interval, remaining overall duration)`. `fuelI` is the fuel
for each interval's inner loop. -/
def microburstLoop (P : MBParams) (env : MBEnv) (campaignStart : ℚ) (fuelI : ℕ) :
    ℕ → ℕ → MBState → String × MBState
  | 0, _burstCount, st => ("fuel exhausted", st)
  | fuelO + 1, burstCount, st =>
      if mbBurstsDone P.bursts burstCount then
        ("Requested number of bursts completed", st)
      else
        let d1 := mbDurHit P.durationS env campaignStart st
        if d1.1 then ("Duration limit reached", d1.2)
        else
          let s1 := mbCheckStop env d1.2
          if s1.1 then ("Stop requested", s1.2)
          else
            let i1 := runInterval env P.idleRateHz P.idleDurationS fuelI s1.2
            if ¬i1.1 then
              let s2 := mbCheckStop env i1.2
              if s2.1 then ("Stop requested", s2.2) else ("Target pool exhausted", s2.2)
            else
              let d2 := mbDurHit P.durationS env campaignStart i1.2
              if d2.1 then ("Duration limit reached", d2.2)
              else
                let s3 := mbCheckStop env d2.2
                if s3.1 then ("Stop requested", s3.2)
                else
                  let i2 := runInterval env P.burstRateHz P.burstDurationS fuelI s3.2
                  if ¬i2.1 then
                    let s4 := mbCheckStop env i2.2
                    if s4.1 then ("Stop requested", s4.2) else ("Target pool exhausted", s4.2)
                  else microburstLoop P env campaignStart fuelI fuelO (burstCount + 1) i2.2

/-- `MicroburstTimeProfile.run`: read `campaign_start`, then loop with
`burst_count = 0`. -/
def microburstRun (P : MBParams) (env : MBEnv) (fuelO fuelI : ℕ)
    (pool : List TargetSpec) : String × MBState :=
  let st0 : MBState := ⟨0, 0, 0, 0, 0, [], pool⟩
  let r := mbReadNow env st0
  microburstLoop P env r.1 fuelI fuelO 0 r.2

/-- A microburst environment with no stop requests, zero scheduling
overhead, and every exponential draw equal to 3/10 s. -/
def mbEnvZero : MBEnv :=
  ⟨fun _ => false, fun _ => 0, fun _ => mkRat 3 10, fun _ => 0⟩

/-- The truncation scenario: `burst_rate_hz=1`, `idle_rate_hz=0`,
`burst_duration_s=1`, `idle_duration_s=5`, `bursts=1`, `duration_s=1`.
The remaining overall duration when the idle interval starts is 1 s,
while the idle interval itself is configured for 5 s. -/
def c5Params : MBParams := ⟨1, 0, 1, 5, some 1, some 1⟩

/-- Result state of the truncation scenario. -/
def c5Run : String × MBState := microburstRun c5Params mbEnvZero 10 40 []

/-! ## Benchmark sync (`src/core/campaign/sync.py`) -/

/-- Mutable state of a `BenchmarkSync` instance. `enabled` is
`sync_file_path is not None`. -/
structure SyncState where
  enabled : Bool
  fileAppeared : Bool
  fileDisappeared : Bool
  lastCheckTime : ℚ
  injectionCount : ℕ
  checkIntervalS : ℚ
  checkEveryN : ℕ
deriving DecidableEq, Repr

/-- `BenchmarkSync.should_check`: hybrid time-or-count trigger.
`wallTime` is the `time.time()` reading taken by the method. -/
def shouldCheck (sync : SyncState) (wallTime : ℚ) : Bool :=
  if ¬sync.enabled ∨ ¬sync.fileAppeared then false
  else if wallTime - sync.lastCheckTime ≥ sync.checkIntervalS then true
  else if sync.injectionCount ≥ sync.checkEveryN then true
  else false

/-- `BenchmarkSync.check_benchmark_active`: tests the signal file's
existence (`fileExists`, supplied by the environment), records
disappearance, and resets the hybrid-check counters using a fresh
`time.time()` reading. Returns the existence flag. -/
def checkBenchmarkActive (sync : SyncState) (wallTime : ℚ) (fileExists : Bool) :
    Bool × SyncState :=
  if ¬sync.enabled then (true, sync)
  else
    let sync1 := if ¬fileExists then { sync with fileDisappeared := true } else sync
    (fileExists, { sync1 with lastCheckTime := wallTime, injectionCount := 0 })

/-- `BenchmarkSync.on_injection`: count injections since the last check. -/
def onInjection (sync : SyncState) : SyncState :=
  if sync.enabled then { sync with injectionCount := sync.injectionCount + 1 } else sync

/-! ## Controller and router
(`src/core/campaign/controller.py`, `src/targets/router.py`) -/

/-- Mutable state of an `InjectionController`:
statistics counters, the cooperative stop flag, the termination reason
(initially `"unknown"`), and the optional benchmark-sync collaborator. -/
structure CtrlState where
  totalInjections : ℕ
  successes : ℕ
  failures : ℕ
  stopFlag : Bool
  terminationReason : String
  sync : Option SyncState
deriving DecidableEq, Repr

/-- Environment of one `inject_target` call: the outcome of the backend
collaborator call for each kind (`Except.error` models a raised
exception), the two `time.time()` readings of the sync path, and the
signal file's existence. `sem_proto.inject_lfa` returns no status, so its
success carries `Unit`; `board_if.inject_register` returns a `Bool`. -/
structure InjectEnv where
  semResult : Except PyErr Unit
  boardResult : Except PyErr Bool
  wallTimeA : ℚ
  wallTimeB : ℚ
  fileExists : Bool

/-- `router._inject_config_bit`: `try: sem_proto.inject_lfa(addr); return
True; except: return False`. The `match` on the `Except` value is the
`try/except` of the source — an exception from the backend is consumed
here and never propagates. -/
def injectConfigBit (semResult : Except PyErr Unit) : Bool :=
  match semResult with
  | Except.ok _ => true
  | Except.error _ => false

/-- `router._inject_register`: `try: return board_if.inject_register(...);
except: return False`. -/
def injectRegister (boardResult : Except PyErr Bool) : Bool :=
  match boardResult with
  | Except.ok b => b
  | Except.error _ => false

/-- `router.inject_target`: route by kind; `TargetKind` is a closed
two-value enum, so the unknown-kind branch of the source is
unreachable. -/
def routerInjectTarget (target : TargetSpec) (env : InjectEnv) : Bool :=
  match target.kind with
  | TargetKind.CONFIG => injectConfigBit env.semResult
  | TargetKind.REG => injectRegister env.boardResult

/-- The dispatch part of `InjectionController.inject_target`: increment
`total`, capture the pre-dispatch timestamp (irrelevant to the claims,
not modelled further), route to the backend, update the success/failure
counters, log (external sink, a no-op here), and update sync tracking. -/
def injectCore (env : InjectEnv) (target : TargetSpec) (st : CtrlState) :
    Bool × CtrlState :=
  let st1 := { st with totalInjections := st.totalInjections + 1 }
  let success := routerInjectTarget target env
  let st2 :=
    if success then { st1 with successes := st1.successes + 1 }
    else { st1 with failures := st1.failures + 1 }
  let st3 :=
    match st2.sync with
    | some sync => { st2 with sync := some (onInjection sync) }
    | none => st2
  (success, st3)

/-- `InjectionController.inject_target`: the benchmark-sync gate runs
first; when the hybrid check fires and the signal file is gone, the
controller calls `request_stop()` and returns `False` — it does not call
`set_termination_reason`, and no statistics counter is touched.
Otherwise dispatch proceeds. -/
def injectTarget (env : InjectEnv) (target : TargetSpec) (st : CtrlState) :
    Bool × CtrlState :=
  match st.sync with
  | some sync =>
      if shouldCheck sync env.wallTimeA then
        let c := checkBenchmarkActive sync env.wallTimeB env.fileExists
        if ¬c.1 then
          (false, { st with stopFlag := true, sync := some c.2 })
        else injectCore env target { st with sync := some c.2 }
      else injectCore env target st
  | none => injectCore env target st

/-- `True` exactly when the sync gate of `inject_target` aborts the call
(hybrid check fires and the signal file is gone). -/
def syncAborts (env : InjectEnv) (st : CtrlState) : Bool :=
  match st.sync with
  | some sync =>
      shouldCheck sync env.wallTimeA
        && !(checkBenchmarkActive sync env.wallTimeB env.fileExists).1
  | none => false

/-- `True` exactly when the backend collaborator that `target` routes to
raises an exception. -/
def backendRaises (env : InjectEnv) (target : TargetSpec) : Bool :=
  match target.kind with
  | TargetKind.CONFIG =>
      match env.semResult with
      | Except.error _ => true
      | Except.ok _ => false
  | TargetKind.REG =>
      match env.boardResult with
      | Except.error _ => true
      | Except.ok _ => false

/-! ## Trace-replay schedule loading (`src/profiles/time/trace.py`) -/

/-- Trace interpretation mode of `TraceTimeProfile`. -/
inductive TraceMode where
  | absolute
  | relative
deriving DecidableEq, Repr

/-- The running-sum conversion of the `relative` branch of
`_load_schedule`: `cumulative += interval; timestamps.append(cumulative)`. -/
def prefixSums : List ℚ → ℚ → List ℚ
  | [], _ => []
  | v :: rest, acc => (acc + v) :: prefixSums rest (acc + v)

/-- `TraceTimeProfile._load_schedule`, starting from the per-line parsed
values (file access and float parsing are external). Negative entries are
skipped (`if val < 0.0: continue`); an empty remainder raises
`ValueError` (modelled as `Except.error`); `absolute` mode sorts the
values ascending (`values.sort()`), `relative` mode converts gaps to
absolute offsets by running sum. -/
def loadSchedule (vals : List ℚ) (mode : TraceMode) : Except String (List ℚ) :=
  let values := vals.filter (fun v => decide (¬v < 0))
  if values.isEmpty then Except.error "No valid values found in trace file"
  else
    match mode with
    | TraceMode.absolute => Except.ok (values.insertionSort (· ≤ ·))
    | TraceMode.relative => Except.ok (prefixSums values 0)

/-- A uniform environment with no stop requests and no overhead. -/
def uniformEnvZero : UniformEnv :=
  ⟨fun _ => false, fun _ => 0, fun _ => 0, fun _ => 0⟩

/-- The burst-count scenario: an idle second, then one burst of 5 s at
rate 1 with every exponential draw equal to 3/10 s, `bursts=1` and no
overall duration. -/
def c5BurstRun : String × MBState :=
  microburstRun ⟨1, 0, 5, 1, some 1, none⟩ mbEnvZero 10 60 ((List.range 30).map cfgSpec)

/-- A sync state whose injection-count threshold (100) has just been
reached: the hybrid check fires on the count condition. -/
def c7Sync : SyncState := ⟨true, true, false, 0, 100, 1, 100⟩

/-- A controller state with the sync collaborator above, no stop request,
the initial reason `"unknown"`, and zeroed statistics. -/
def c7St : CtrlState := ⟨0, 0, 0, false, "unknown", some c7Sync⟩

/-- An environment where both backends would succeed but the benchmark
signal file is gone. -/
def c7Env : InjectEnv := ⟨Except.ok (), Except.ok true, 0, 0, false⟩

/-- A controller state with no sync collaborator and some prior
statistics. -/
def c8St : CtrlState := ⟨5, 3, 2, false, "unknown", none⟩

/-- An environment where both backend collaborators raise. -/
def c8Env : InjectEnv :=
  ⟨Except.error (PyErr.nameError "boom"), Except.error (PyErr.nameError "boom"), 0, 0, true⟩

/-! ## Helper lemmas -/

/-- A pool has no element of kind `k` iff `countKind k` is zero. -/
theorem countKind_eq_zero {k : TargetKind} {l : List TargetSpec} :
    countKind k l = 0 ↔ ∀ t ∈ l, t.kind ≠ k := by
  simp [countKind, List.length_eq_zero, List.filter_eq_nil_iff]

/-- With `ratio = 1.0`, `should_pick_reg` always picks REG. -/
theorem shouldPickReg_one (a b : ℕ) : shouldPickReg 1 a b = true := by
  simp [shouldPickReg]

/-- With `ratio = 0.0`, `should_pick_reg` always picks CONFIG. -/
theorem shouldPickReg_zero (a b : ℕ) : shouldPickReg 0 a b = false := by
  simp [shouldPickReg]

/-- With `ratio = 1.0` and `repeat` or `ratio_strict` set, a successful
loop-body iteration only ever appends a REG candidate. -/
theorem seqStep_one_mem {rpt strict : Bool} {cfgT regT : List TargetSpec}
    (hrs : rpt = true ∨ strict = true) {st st' : SeqState}
    (h : seqStep 1 rpt strict cfgT regT st = some st') :
    ∀ t ∈ st'.pool, t ∈ st.pool ∨ t ∈ regT := by
  unfold seqStep at h
  rw [shouldPickReg_one] at h
  simp only [if_true] at h
  rcases Nat.lt_or_ge st.regIdx regT.length with hlt | hge
  · rw [dif_pos hlt, Option.some_inj] at h
    subst h
    intro t ht
    rw [apply_ite SeqState.pool] at ht
    dsimp only at ht
    rw [ite_self] at ht
    simp only [List.mem_append, List.mem_singleton] at ht
    rcases ht with ht | ht
    · exact Or.inl ht
    · exact Or.inr (ht ▸ List.get_mem _ _ _)
  · rw [dif_neg (not_lt.mpr hge)] at h
    by_cases h2 : ¬rpt = true ∧ st.configIdx < cfgT.length
    · rw [dif_pos h2] at h
      rcases hrs with hh | hh
      · exact absurd hh h2.1
      · rw [if_pos hh] at h
        exact Option.noConfusion h
    · rw [dif_neg h2] at h
      exact Option.noConfusion h

/-- With `ratio = 0.0` and `repeat` or `ratio_strict` set, a successful
loop-body iteration only ever appends a CONFIG candidate. -/
theorem seqStep_zero_mem {rpt strict : Bool} {cfgT regT : List TargetSpec}
    (hrs : rpt = true ∨ strict = true) {st st' : SeqState}
    (h : seqStep 0 rpt strict cfgT regT st = some st') :
    ∀ t ∈ st'.pool, t ∈ st.pool ∨ t ∈ cfgT := by
  unfold seqStep at h
  rw [shouldPickReg_zero] at h
  simp only [Bool.false_eq_true, if_false] at h
  rcases Nat.lt_or_ge st.configIdx cfgT.length with hlt | hge
  · rw [dif_pos hlt, Option.some_inj] at h
    subst h
    intro t ht
    rw [apply_ite SeqState.pool] at ht
    dsimp only at ht
    rw [ite_self] at ht
    simp only [List.mem_append, List.mem_singleton] at ht
    rcases ht with ht | ht
    · exact Or.inl ht
    · exact Or.inr (ht ▸ List.get_mem _ _ _)
  · rw [dif_neg (not_lt.mpr hge)] at h
    by_cases h2 : ¬rpt = true ∧ st.regIdx < regT.length
    · rw [dif_pos h2] at h
      rcases hrs with hh | hh
      · exact absurd hh h2.1
      · rw [if_pos hh] at h
        exact Option.noConfusion h
    · rw [dif_neg h2] at h
      exact Option.noConfusion h

/-- With `ratio = 1.0` and `repeat` or `ratio_strict` set, the whole loop
only ever appends REG candidates. -/
theorem seqLoop_one_mem {rpt strict : Bool} {cfgT regT : List TargetSpec}
    (hrs : rpt = true ∨ strict = true) :
    ∀ (fuel : ℕ) (st : SeqState),
      ∀ t ∈ (seqLoop 1 rpt strict cfgT regT fuel st).pool, t ∈ st.pool ∨ t ∈ regT := by
  intro fuel
  induction fuel with
  | zero => intro st t ht; exact Or.inl ht
  | succ n ih =>
      intro st t ht
      rw [seqLoop] at ht
      cases hstep : seqStep 1 rpt strict cfgT regT st with
      | none => rw [hstep] at ht; exact Or.inl ht
      | some st1 =>
          rw [hstep] at ht
          dsimp only at ht
          by_cases hb : ¬rpt = true ∧ st1.configIdx ≥ cfgT.length ∧ st1.regIdx ≥ regT.length
          · rw [if_pos hb] at ht
            exact seqStep_one_mem hrs hstep t ht
          · rw [if_neg hb] at ht
            rcases ih st1 t ht with h1 | h1
            · exact seqStep_one_mem hrs hstep t h1
            · exact Or.inr h1

/-- With `ratio = 0.0` and `repeat` or `ratio_strict` set, the whole loop
only ever appends CONFIG candidates. -/
theorem seqLoop_zero_mem {rpt strict : Bool} {cfgT regT : List TargetSpec}
    (hrs : rpt = true ∨ strict = true) :
    ∀ (fuel : ℕ) (st : SeqState),
      ∀ t ∈ (seqLoop 0 rpt strict cfgT regT fuel st).pool, t ∈ st.pool ∨ t ∈ cfgT := by
  intro fuel
  induction fuel with
  | zero => intro st t ht; exact Or.inl ht
  | succ n ih =>
      intro st t ht
      rw [seqLoop] at ht
      cases hstep : seqStep 0 rpt strict cfgT regT st with
      | none => rw [hstep] at ht; exact Or.inl ht
      | some st1 =>
          rw [hstep] at ht
          dsimp only at ht
          by_cases hb : ¬rpt = true ∧ st1.configIdx ≥ cfgT.length ∧ st1.regIdx ≥ regT.length
          · rw [if_pos hb] at ht
            exact seqStep_zero_mem hrs hstep t ht
          · rw [if_neg hb] at ht
            rcases ih st1 t ht with h1 | h1
            · exact seqStep_zero_mem hrs hstep t h1
            · exact Or.inr h1

/-! ## Claim C1 — strict exhaustion scenario -/

/-- C1 counterexample: with `ratio_strict=True`, `repeat=False`, 10 CONFIG
and 3 REG candidates, `ratio=0.5` and no explicit size limit,
`build_sequential_intermixed_pool` returns a pool of length 7, not 6 as
the claim states, and it contains 4 ConfigBit targets, not 3. -/
theorem strict_exhaustion_pool_not_six :
    c1Pool.length = 7 ∧ c1Pool.length ≠ 6 ∧ countKind TargetKind.CONFIG c1Pool ≠ 3 := by
  decide

/-- C1 (amended): with `ratio_strict=true`, `repeat=false`, 10 ConfigBit
and 3 Register candidates, `r=0.5` and no explicit size limit,
`build_sequential_intermixed_pool` returns the pool
`[C, R, C, R, C, R, C]` of length exactly 7, containing 3 Register and 4
ConfigBit targets: after the minority (Register) is exhausted, positions
whose decision rule asks for ConfigBit are still filled, and building
stops at the first position whose decision rule asks for the exhausted
Register kind. -/
theorem strict_exhaustion_pool_seven :
    c1Pool = [cfgSpec 0, regSpec 0, cfgSpec 1, regSpec 1, cfgSpec 2, regSpec 2, cfgSpec 3]
    ∧ c1Pool.length = 7
    ∧ countKind TargetKind.REG c1Pool = 3
    ∧ countKind TargetKind.CONFIG c1Pool = 4 := by
  decide

/-! ## Claim C4 — pure-mode exactness -/

/-- C4 counterexample: with `ratio=1.0`, `repeat=False` and
`ratio_strict=False`, one CONFIG and one REG candidate, the built pool
contains a ConfigBit pick (the non-strict fallback appends CONFIG targets
once the REG list is exhausted), so `r=1.0` does not yield zero ConfigBit
picks for every combination of `repeat` and `ratio_strict`. -/
theorem pure_mode_fallback_appends_config :
    countKind TargetKind.CONFIG
      (buildSequentialIntermixedPool 1 false none false
        TPOOL_SIZE_BREAK_REPEAT_ONLY TPOOL_ABSOLUTE_CAP
        [cfgSpec 0] [regSpec 0]).pool = 1 := by
  decide

/-- C4 (amended): for every pair of candidate lists and any size limit,
provided `repeat` or `ratio_strict` is set, a pool built with `r=0.0`
contains zero Register targets and a pool built with `r=1.0` contains
zero ConfigBit targets. (Without both flags, minority exhaustion falls
back to the other kind, as the counterexample shows.) -/
theorem pure_mode_exactness_strict_or_repeat
    (cfgT regT : List TargetSpec) (rpt strict : Bool) (tc : Option ℕ)
    (bro : Bool) (cap : ℕ)
    (hrs : rpt = true ∨ strict = true)
    (hc : ∀ t ∈ cfgT, t.kind = TargetKind.CONFIG)
    (hr : ∀ t ∈ regT, t.kind = TargetKind.REG) :
    countKind TargetKind.REG
      (buildSequentialIntermixedPool 0 rpt tc strict bro cap cfgT regT).pool = 0
    ∧ countKind TargetKind.CONFIG
      (buildSequentialIntermixedPool 1 rpt tc strict bro cap cfgT regT).pool = 0 := by
  constructor
  · rw [countKind_eq_zero]
    intro t ht
    rcases seqLoop_zero_mem hrs _ _ t ht with h1 | h1
    · exact absurd h1 (List.not_mem_nil t)
    · rw [hc t h1]
      exact fun hk => TargetKind.noConfusion hk
  · rw [countKind_eq_zero]
    intro t ht
    rcases seqLoop_one_mem hrs _ _ t ht with h1 | h1
    · exact absurd h1 (List.not_mem_nil t)
    · rw [hr t h1]
      exact fun hk => TargetKind.noConfusion hk

/-- Witness for `pure_mode_exactness_strict_or_repeat` at a concrete
input (`repeat=false`, `ratio_strict=true`, one candidate of each kind). -/
theorem pure_mode_exactness_strict_or_repeat_witness :
    ((false = true ∨ true = true)
      ∧ (∀ t ∈ [cfgSpec 0], t.kind = TargetKind.CONFIG)
      ∧ (∀ t ∈ [regSpec 0], t.kind = TargetKind.REG))
    ∧ (countKind TargetKind.REG
        (buildSequentialIntermixedPool 0 false (some 5) true true 1000 [cfgSpec 0] [regSpec 0]).pool = 0
      ∧ countKind TargetKind.CONFIG
        (buildSequentialIntermixedPool 1 false (some 5) true true 1000 [cfgSpec 0] [regSpec 0]).pool = 0) :=
  ⟨⟨Or.inr rfl, by decide, by decide⟩,
    pure_mode_exactness_strict_or_repeat [cfgSpec 0] [regSpec 0] false true (some 5)
      true 1000 (Or.inr rfl) (by decide) (by decide)⟩

/-! ## Claim C9 — target construction validation -/

/-- C9 counterexample: a `CONFIG` target with both `config_address` and
`reg_id` populated constructs successfully — the "exactly one of
`config_address`/`reg_id`" invariant is not enforced by
`TargetSpec.__post_init__`, which only checks the field required by the
kind. -/
theorem targetspec_both_fields_accepted :
    mkTargetSpec TargetKind.CONFIG "m" (some "00001234") none (some 5) none "t"
      = Except.ok ⟨TargetKind.CONFIG, "m", some "00001234", none, some 5, none, "t"⟩ := by
  rfl

/-- C9 (amended): `TargetSpec` construction succeeds iff the field
required by the kind is present — a ConfigBit target without
`config_address` fails, a Register target without `reg_id` fails — and
nothing else is checked: populating the other kind's field is accepted,
so the exactly-one invariant is not enforced. -/
theorem targetspec_construction_iff_required_field
    (k : TargetKind) (mn : String) (ca : Option String) (pb : Option String)
    (rid : Option Int) (rn : Option String) (src : String) :
    (∃ t, mkTargetSpec k mn ca pb rid rn src = Except.ok t)
      ↔ ((k = TargetKind.CONFIG → ca ≠ none) ∧ (k = TargetKind.REG → rid ≠ none)) := by
  cases k <;> cases ca <;> cases rid <;> simp [mkTargetSpec]

/-! ## Claim C10 — trace schedule invariants -/

/-- Running sums of non-negative gaps are bounded below by the
accumulator and sorted nondecreasingly. -/
theorem prefixSums_sorted_and_bounded :
    ∀ (l : List ℚ) (acc : ℚ), (∀ v ∈ l, 0 ≤ v) →
      List.Sorted (· ≤ ·) (prefixSums l acc) ∧ ∀ x ∈ prefixSums l acc, acc ≤ x := by
  intro l
  induction l with
  | nil => intro acc _; exact ⟨List.sorted_nil, by simp [prefixSums]⟩
  | cons v rest ih =>
      intro acc hnn
      have hv : 0 ≤ v := hnn v (List.mem_cons_self v rest)
      have hrest : ∀ u ∈ rest, 0 ≤ u := fun u hu => hnn u (List.mem_cons_of_mem v hu)
      obtain ⟨hsorted, hbound⟩ := ih (acc + v) hrest
      refine ⟨?_, ?_⟩
      · rw [prefixSums, List.sorted_cons]
        exact ⟨fun b hb => hbound b hb, hsorted⟩
      · intro x hx
        rw [prefixSums, List.mem_cons] at hx
        rcases hx with hx | hx
        · rw [hx]
          exact le_add_of_nonneg_right hv
        · exact le_trans (le_add_of_nonneg_right hv) (hbound x hx)

/-- Running sums preserve length. -/
theorem prefixSums_length : ∀ (l : List ℚ) (acc : ℚ), (prefixSums l acc).length = l.length := by
  intro l
  induction l with
  | nil => intro acc; rfl
  | cons v rest ih => intro acc; simp [prefixSums, ih]

/-- C10: whenever `_load_schedule` succeeds, the loaded schedule is a
non-empty, nondecreasing list of non-negative offsets; in absolute mode
it is a permutation (the ascending sort) of the non-negative input
entries regardless of their file order; negative entries are silently
dropped in both modes; and when no valid entry remains, loading fails
with an error. -/
theorem trace_schedule_invariants (vals : List ℚ) (mode : TraceMode) (sched : List ℚ)
    (h : loadSchedule vals mode = Except.ok sched) :
    sched ≠ []
    ∧ List.Sorted (· ≤ ·) sched
    ∧ (∀ x ∈ sched, 0 ≤ x)
    ∧ (mode = TraceMode.absolute → sched.Perm (vals.filter (fun v => decide (¬v < 0))))
    ∧ (∀ w : List ℚ, w.filter (fun v => decide (¬v < 0)) = [] →
        ∃ msg, loadSchedule w mode = Except.error msg) := by
  unfold loadSchedule at h
  dsimp only at h
  by_cases he : (vals.filter (fun v => decide (¬v < 0))).isEmpty
  · rw [if_pos he] at h
    exact Except.noConfusion h
  · rw [if_neg he] at h
    have hne : vals.filter (fun v => decide (¬v < 0)) ≠ [] := by
      intro hcon
      rw [hcon] at he
      exact he rfl
    have hmem : ∀ x ∈ vals.filter (fun v => decide (¬v < 0)), (0:ℚ) ≤ x := by
      intro x hx
      have := List.of_mem_filter hx
      simp only [decide_eq_true_eq] at this
      exact not_lt.mp this
    have herr : ∀ w : List ℚ, w.filter (fun v => decide (¬v < 0)) = [] →
        ∃ msg, loadSchedule w mode = Except.error msg := by
      intro w hw
      refine ⟨"No valid values found in trace file", ?_⟩
      unfold loadSchedule
      dsimp only
      rw [hw]
      rfl
    cases mode with
    | absolute =>
        rw [Except.ok.injEq] at h
        subst h
        refine ⟨?_, ?_, ?_, ?_, herr⟩
        · intro hcon
          have := List.length_insertionSort (· ≤ ·) (vals.filter (fun v => decide (¬v < 0)))
          rw [hcon] at this
          exact hne (List.length_eq_zero.mp this.symm)
        · exact List.sorted_insertionSort (· ≤ ·) _
        · intro x hx
          exact hmem x ((List.mem_insertionSort (· ≤ ·)).mp hx)
        · intro _
          exact List.perm_insertionSort (· ≤ ·) _
    | relative =>
        rw [Except.ok.injEq] at h
        subst h
        obtain ⟨hs, hb⟩ := prefixSums_sorted_and_bounded _ 0 hmem
        refine ⟨?_, hs, hb, ?_, herr⟩
        · intro hcon
          have := prefixSums_length (vals.filter (fun v => decide (¬v < 0))) 0
          rw [hcon] at this
          exact hne (List.length_eq_zero.mp this.symm)
        · intro hcon
          exact TraceMode.noConfusion hcon

/-- Witness for `trace_schedule_invariants` on the concrete trace
`[3, 1, -2, 2]` in absolute mode: the negative entry is dropped and the
rest is sorted into `[1, 2, 3]`. -/
theorem trace_schedule_invariants_witness :
    loadSchedule [3, 1, -2, 2] TraceMode.absolute = Except.ok [1, 2, 3]
    ∧ (([1, 2, 3] : List ℚ) ≠ []
      ∧ List.Sorted (· ≤ ·) [(1:ℚ), 2, 3]
      ∧ (∀ x ∈ [(1:ℚ), 2, 3], 0 ≤ x)
      ∧ (TraceMode.absolute = TraceMode.absolute →
          List.Perm [(1:ℚ), 2, 3] ([3, 1, -2, 2].filter (fun v => decide (¬v < 0))))
      ∧ (∀ w : List ℚ, w.filter (fun v => decide (¬v < 0)) = [] →
          ∃ msg, loadSchedule w TraceMode.absolute = Except.error msg)) :=
  ⟨by rfl, trace_schedule_invariants [3, 1, -2, 2] TraceMode.absolute [1, 2, 3] (by rfl)⟩

/-! ## Claim C3 — uniform absolute deadlines -/

/-- Generalized invariant of the uniform loop: the `n`-th event emitted
from a loop entered with injection counter `count` carries the deadline
`start_t + (count + n) * period_s`, and when that deadline has already
passed at the pre-sleep reading, no sleep happens. This holds for every
environment (arbitrary stop schedule and arbitrary dispatch/logging
overheads), so the deadline never depends on the previous injection's
actual time. -/
theorem uniformLoop_event_spec (p : ℚ) (dur : Option ℚ) (env : UniformEnv) (startT : ℚ) :
    ∀ (pool : List TargetSpec) (count : ℕ) (clock : ℚ) (n : ℕ) (ev : InjEvent),
      (uniformLoop p dur env startT pool count clock).1.get? n = some ev →
      ev.deadline = startT + ((count + n : ℕ) : ℚ) * p
      ∧ (ev.deadline ≤ ev.checkTime → ev.slept = 0) := by
  intro pool
  induction pool with
  | nil =>
      intro count clock n ev hev
      rw [uniformLoop] at hev
      split at hev
      · simp at hev
      · split at hev <;> simp at hev
  | cons t rest ih =>
      intro count clock n ev hev
      rw [uniformLoop] at hev
      by_cases hs : env.stop count
      · rw [if_pos hs] at hev
        simp at hev
      · rw [if_neg hs] at hev
        dsimp only at hev
        by_cases hd : uniformDurHit dur startT (uniformDurClock dur env count clock)
        · rw [if_pos hd] at hev
          simp at hev
        · rw [if_neg hd] at hev
          cases n with
          | zero =>
              rw [List.get?_cons_zero, Option.some_inj] at hev
              subst hev
              refine ⟨by rw [Nat.add_zero], ?_⟩
              intro hle
              dsimp only at hle ⊢
              rw [if_neg (not_lt.mpr (sub_nonpos.mpr hle))]
          | succ m =>
              rw [List.get?_cons_succ] at hev
              obtain ⟨h1, h2⟩ := ih (count + 1) _ m ev hev
              refine ⟨?_, h2⟩
              rw [h1]
              have harith : count + 1 + m = count + (m + 1) := by omega
              rw [harith]

/-- C3: for every run of the uniform profile with effective period `p`,
the deadline computed for injection `n` is `start_time + n * p` —
a function of the absolute campaign start and the injection index only,
for every environment (so never of the previous injection's time) — and
whenever that deadline has already passed at the pre-sleep reading, the
injection is dispatched with no sleep. -/
theorem uniform_absolute_deadlines (p : ℚ) (dur : Option ℚ) (env : UniformEnv)
    (startT : ℚ) (pool : List TargetSpec) (n : ℕ) (ev : InjEvent)
    (h : (uniformRun p dur env startT pool).1.get? n = some ev) :
    ev.deadline = startT + (n : ℚ) * p
    ∧ (ev.deadline ≤ ev.checkTime → ev.slept = 0) := by
  unfold uniformRun at h
  have := uniformLoop_event_spec p dur env startT pool 0 startT n ev h
  simpa using this

/-- Witness for `uniform_absolute_deadlines`: with period 1, no duration
limit and a two-target pool, injection 1 is scheduled at deadline
`0 + 1·1 = 1` and sleeps 1 s from its reading at time 0. -/
theorem uniform_absolute_deadlines_witness :
    ((uniformRun 1 none uniformEnvZero 0 [cfgSpec 0, cfgSpec 1]).1.get? 1
      = some ⟨1, 0, 1⟩)
    ∧ ((⟨1, 0, 1⟩ : InjEvent).deadline = 0 + (1 : ℚ) * 1
      ∧ ((⟨1, 0, 1⟩ : InjEvent).deadline ≤ (⟨1, 0, 1⟩ : InjEvent).checkTime →
          (⟨1, 0, 1⟩ : InjEvent).slept = 0)) :=
  ⟨by rfl,
    uniform_absolute_deadlines 1 none uniformEnvZero 0 [cfgSpec 0, cfgSpec 1] 1
      ⟨1, 0, 1⟩ (by rfl)⟩

/-! ## Claim C2 — ramp profile -/

/-- C2: `RampTimeProfile.run` does not interpolate anything and does not
return normally on the main path. With valid parameters
(`start_rate_hz=1`, `end_rate_hz=2`, `duration_s=100`, accepted by
`__init__`), a non-empty pool and no stop request, the very first loop
iteration reaches `next_deadline += period_s` and raises
`NameError: name 'period_s' is not defined` — `_current_rate` is never
called by `run`, so no rate is ever sampled. -/
theorem ramp_run_raises_nameerror :
    mkRampProfile 1 2 100 = Except.ok ⟨1, 2, 100⟩
    ∧ rampRun ⟨1, 2, 100⟩ rampEnvZero [cfgSpec 0] 0
        = (Except.error (PyErr.nameError "period_s"), "unknown")
    ∧ currentRate ⟨1, 2, 100⟩ 50 = 1 + (50 / 100) * (2 - 1) := by
  refine ⟨by rfl, by rfl, ?_⟩
  rw [currentRate]
  norm_num

/-! ## Claim C6 — termination reason completeness -/

/-- C6: the ramp profile has an exit path that never calls
`set_termination_reason`: with valid parameters, a non-empty pool and no
stop request, `run` exits by propagating `NameError` and the controller's
termination reason is still `"unknown"` afterwards — a silent campaign
stop. (The stop/duration/exhaustion exits of the embedded profiles do
set a documented reason, as the other theorems in this file show; the
ramp crash is the exit path that violates the claim.) -/
theorem ramp_exit_leaves_unknown_reason :
    (rampRun ⟨1, 10, 60⟩ rampEnvZero [regSpec 0] 0).2 = "unknown"
    ∧ (rampRun ⟨1, 10, 60⟩ rampEnvZero [regSpec 0] 0).1
        = Except.error (PyErr.nameError "period_s")
    ∧ (rampRun ⟨1, 10, 60⟩ rampEnvZero [regSpec 0] 0).2 ≠ "Stop requested"
    ∧ (rampRun ⟨1, 10, 60⟩ rampEnvZero [regSpec 0] 0).2 ≠ "Duration limit reached"
    ∧ (rampRun ⟨1, 10, 60⟩ rampEnvZero [regSpec 0] 0).2 ≠ "Target pool exhausted" := by
  refine ⟨by rfl, by rfl, ?_, ?_, ?_⟩ <;> decide

/-! ## Claim C5 — microburst intervals -/

/-- C5 counterexample: in the truncation scenario (`idle_duration_s=5`,
overall `duration_s=1`), the idle interval is run with its full 5-second
duration even though only 1 s of overall budget remains: the run's final
clock is 5, far past `campaign_start + duration_s + one coarse sleep
step = 2`, so intervals are not truncated to the remaining overall
duration (the overall limit is only checked between intervals). -/
theorem microburst_interval_not_truncated :
    c5Run.1 = "Duration limit reached"
    ∧ c5Run.2.clock = 5
    ∧ ¬(c5Run.2.clock ≤ 0 + 1 + 1) := by
  refine ⟨by rfl, by rfl, ?_⟩
  decide

/-- C5 (amended): microburst intervals are internally scheduled as
Poisson processes — each injection is placed at `now + delta` where
`delta` is an exponential draw (`base.sample_exponential`), not at the
fixed-rate absolute deadlines of the Uniform law — and each interval
runs for its full configured duration; the overall `duration_s` is only
enforced between intervals. The profile terminates with "Requested
number of bursts completed" after the configured burst count, or with
"Duration limit reached" when the overall duration has elapsed at an
inter-interval check, whichever comes first. Concretely: the truncation
scenario ends at clock 5 (full idle interval, 4 s past the overall
limit), and the burst scenario's first injection fires at
`interval_start + 3/10` (the sampled draw) rather than at the Uniform
law's first deadline `interval_start + 0·(1/rate) = interval_start`. -/
theorem microburst_poisson_full_intervals :
    c5Run.1 = "Duration limit reached"
    ∧ c5Run.2.clock = 5
    ∧ c5BurstRun.1 = "Requested number of bursts completed"
    ∧ c5BurstRun.2.injTimes.head? = some (1 + mkRat 3 10)
    ∧ (1 + mkRat 3 10 : ℚ) ≠ 1 := by
  refine ⟨by rfl, by rfl, by rfl, by rfl, ?_⟩
  decide

/-! ## Claims C7 and C8 — controller behavior -/

/-- A firing hybrid check implies sync is enabled (the first guard of
`should_check` returns `False` otherwise). -/
theorem shouldCheck_true_enabled {sync : SyncState} {wt : ℚ}
    (h : shouldCheck sync wt = true) : sync.enabled = true := by
  unfold shouldCheck at h
  by_cases he : ¬sync.enabled = true ∨ ¬sync.fileAppeared = true
  · rw [if_pos he] at h
    exact Bool.noConfusion h
  · push_neg at he
    exact he.1

/-- When the routed backend raises, the router returns `False` (the
`try/except` consumes the exception). -/
theorem routerInjectTarget_false_of_raises {env : InjectEnv} {target : TargetSpec}
    (h : backendRaises env target = true) : routerInjectTarget target env = false := by
  unfold backendRaises at h
  unfold routerInjectTarget injectConfigBit injectRegister
  revert h
  cases target.kind <;> cases env.semResult <;> cases env.boardResult <;> simp

/-- When the router reports failure, the dispatch core returns `False`,
increments `total` and `failures` by one and leaves `successes` and the
termination reason untouched. -/
theorem injectCore_failure (env : InjectEnv) (target : TargetSpec) (st : CtrlState)
    (h : routerInjectTarget target env = false) :
    (injectCore env target st).1 = false
    ∧ (injectCore env target st).2.failures = st.failures + 1
    ∧ (injectCore env target st).2.successes = st.successes
    ∧ (injectCore env target st).2.totalInjections = st.totalInjections + 1
    ∧ (injectCore env target st).2.terminationReason = st.terminationReason := by
  unfold injectCore
  rw [h]
  simp only [Bool.false_eq_true, if_false]
  cases hs : st.sync <;> simp

/-- C8: for every target and controller state, if the backend collaborator
that the target routes to raises during `inject_target` (and the sync
gate does not abort first, so dispatch is actually reached), the
exception is caught at the router boundary and never propagated:
`inject_target` returns `False`, the failure counter is incremented by
exactly one, and the success counter is unchanged. -/
theorem backend_exception_counted_not_propagated
    (env : InjectEnv) (target : TargetSpec) (st : CtrlState)
    (hgate : syncAborts env st = false)
    (hraise : backendRaises env target = true) :
    (injectTarget env target st).1 = false
    ∧ (injectTarget env target st).2.failures = st.failures + 1
    ∧ (injectTarget env target st).2.successes = st.successes
    ∧ (injectTarget env target st).2.totalInjections = st.totalInjections + 1 := by
  have hrouter := routerInjectTarget_false_of_raises hraise
  unfold injectTarget
  unfold syncAborts at hgate
  cases hsy : st.sync with
  | none =>
      obtain ⟨h1, h2, h3, h4, _⟩ := injectCore_failure env target st hrouter
      exact ⟨h1, h2, h3, h4⟩
  | some sync =>
      rw [hsy] at hgate
      dsimp only at hgate
      dsimp only
      by_cases hchk : shouldCheck sync env.wallTimeA = true
      · rw [hchk] at hgate
        simp only [Bool.true_and] at hgate
        rw [Bool.not_eq_false'] at hgate
        rw [if_pos hchk, if_neg (by rw [hgate]; exact fun hcon => hcon rfl)]
        obtain ⟨h1, h2, h3, h4, _⟩ :=
          injectCore_failure env target { st with sync := some (checkBenchmarkActive sync env.wallTimeB env.fileExists).2 } hrouter
        exact ⟨h1, h2, h3, h4⟩
      · rw [if_neg hchk]
        obtain ⟨h1, h2, h3, h4, _⟩ := injectCore_failure env target st hrouter
        exact ⟨h1, h2, h3, h4⟩

/-- Witness for `backend_exception_counted_not_propagated`: a REG target
whose board backend raises, no sync collaborator, prior statistics
(5 total, 3 successes, 2 failures). -/
theorem backend_exception_witness :
    (syncAborts c8Env c8St = false ∧ backendRaises c8Env (regSpec 0) = true)
    ∧ ((injectTarget c8Env (regSpec 0) c8St).1 = false
      ∧ (injectTarget c8Env (regSpec 0) c8St).2.failures = c8St.failures + 1
      ∧ (injectTarget c8Env (regSpec 0) c8St).2.successes = c8St.successes
      ∧ (injectTarget c8Env (regSpec 0) c8St).2.totalInjections = c8St.totalInjections + 1) :=
  ⟨⟨rfl, rfl⟩, backend_exception_counted_not_propagated c8Env (regSpec 0) c8St rfl rfl⟩

/-- C7 counterexample: when the hybrid check fires during `inject_target`
and the signal file is gone, the controller requests stop and returns
`False`, but the termination reason is left at `"unknown"` — it is not
set to `"Benchmark stopped."` by anyone; the time profile later
overwrites it with `"Stop requested"` when it polls the stop flag. -/
theorem benchmark_stop_reason_stays_unknown :
    (injectTarget c7Env (cfgSpec 0) c7St).1 = false
    ∧ (injectTarget c7Env (cfgSpec 0) c7St).2.stopFlag = true
    ∧ (injectTarget c7Env (cfgSpec 0) c7St).2.terminationReason = "unknown"
    ∧ (injectTarget c7Env (cfgSpec 0) c7St).2.terminationReason ≠ "Benchmark stopped." := by
  refine ⟨by rfl, by rfl, by rfl, ?_⟩
  decide

/-- C7 (amended): whenever the hybrid benchmark-sync check fires during
`inject_target` and the external readiness signal is gone, the
controller requests stop (`stopFlag` becomes `true`) and aborts the call
(returns `False`, no counter changes), but it does not write any
termination reason: the reason is left exactly as it was, for the time
profile's stop check to overwrite (with `"Stop requested"`). -/
theorem benchmark_stop_requests_stop_without_reason
    (env : InjectEnv) (target : TargetSpec) (st : CtrlState) (sync : SyncState)
    (hsync : st.sync = some sync)
    (hcheck : shouldCheck sync env.wallTimeA = true)
    (hgone : env.fileExists = false) :
    (injectTarget env target st).1 = false
    ∧ (injectTarget env target st).2.stopFlag = true
    ∧ (injectTarget env target st).2.terminationReason = st.terminationReason
    ∧ (injectTarget env target st).2.totalInjections = st.totalInjections
    ∧ (injectTarget env target st).2.successes = st.successes
    ∧ (injectTarget env target st).2.failures = st.failures := by
  have henabled := shouldCheck_true_enabled hcheck
  have hc1 : (checkBenchmarkActive sync env.wallTimeB env.fileExists).1 = false := by
    unfold checkBenchmarkActive
    rw [if_neg (by rw [henabled]; exact fun hcon => hcon rfl)]
    rw [hgone]
  unfold injectTarget
  rw [hsync]
  dsimp only
  rw [if_pos hcheck, if_pos (by rw [hc1]; exact Bool.noConfusion)]
  exact ⟨rfl, rfl, rfl, rfl, rfl, rfl⟩

/-- Witness for `benchmark_stop_requests_stop_without_reason` on the
concrete count-threshold scenario. -/
theorem benchmark_stop_witness :
    (c7St.sync = some c7Sync
      ∧ shouldCheck c7Sync c7Env.wallTimeA = true
      ∧ c7Env.fileExists = false)
    ∧ ((injectTarget c7Env (regSpec 1) c7St).1 = false
      ∧ (injectTarget c7Env (regSpec 1) c7St).2.stopFlag = true
      ∧ (injectTarget c7Env (regSpec 1) c7St).2.terminationReason = c7St.terminationReason
      ∧ (injectTarget c7Env (regSpec 1) c7St).2.totalInjections = c7St.totalInjections
      ∧ (injectTarget c7Env (regSpec 1) c7St).2.successes = c7St.successes
      ∧ (injectTarget c7Env (regSpec 1) c7St).2.failures = c7St.failures) :=
  ⟨⟨rfl, by rfl, rfl⟩,
    benchmark_stop_requests_stop_without_reason c7Env (regSpec 1) c7St c7Sync rfl (by rfl) rfl⟩
